import Mathlib

/-!
# Verification of the suroi packet codec snapshot

Shallow embedding of the packet codec slice of the repository:

* the stream primitives (byte-level integer reads/writes, bounded
  length-prefixed strings, bit-packed boolean groups) are modelled from the
  spec, since the stream implementation itself is not part of the snapshot —
  only its callers are;
* the four packet definitions (`MathProblemPacket`, `MathAnswerPacket`,
  `MathFeedbackPacket`, `JoinPacket`) are translated from their source files;
* `MathProblemManager` (problem generation and answer validation) is
  translated from `server/src/mathProblemManager.ts`.

Bytes are modelled as `Nat` (with `% 256` where the source's typed-array
writes truncate), strings as lists of character codes (`List Nat`), and
fallible reads as `Option`-returning functions that consume a prefix of the
input byte list and return the parsed value together with the remaining
bytes.  Decode failures (truncation, registry index out of range) are
modelled as `none`; in a list model an out-of-bounds access cannot be
expressed, so "never reads outside the buffer" is captured by totality of
the readers.
-/

namespace Suroi

/-! ## Stream primitives (write side)

Modelled from the spec: the stream implementation is not in the snapshot.
Integers are fixed-width little-endian; `writeString` emits a length prefix
(one byte when the declared maximum fits a byte, two bytes otherwise)
followed by at most `maxLength` raw bytes of the string, silently
truncating longer input; boolean groups pack their flags
least-significant-bit first into one byte (`writeBooleanGroup`, at most 8
flags) or two bytes (`writeBooleanGroup2`, at most 16 flags). -/

/-- Modelled from the spec: 8-bit unsigned write (missing stream code). -/
def writeUint8 (v : Nat) : List Nat := [v % 256]

/-- Modelled from the spec: 16-bit unsigned little-endian write. -/
def writeUint16 (v : Nat) : List Nat := [v % 256, v / 256 % 256]

/-- Modelled from the spec: 32-bit unsigned little-endian write. -/
def writeUint32 (v : Nat) : List Nat :=
  [v % 256, v / 256 % 256, v / 65536 % 256, v / 16777216 % 256]

/-- Modelled from the spec: 16-bit signed write, two's complement. -/
def writeInt16 (v : Int) : List Nat := writeUint16 (v % 65536).toNat

/-- Modelled from the spec: bounded length-prefixed string write.  Emits
`min s.length maxLength` as a one-byte prefix when `maxLength < 256` and as
a two-byte prefix otherwise, followed by the first `maxLength` character
codes, silently truncating longer input. -/
def writeString (maxLength : Nat) (s : List Nat) : List Nat :=
  (if maxLength < 256
    then writeUint8 (min s.length maxLength)
    else writeUint16 (min s.length maxLength))
  ++ (s.take maxLength).map (fun c => c % 256)

/-- Value of a flag list, least-significant flag first. -/
def bitsToNat : List Bool → Nat
  | [] => 0
  | b :: rest => b.toNat + 2 * bitsToNat rest

/-- The `w` low-order bits of `n`, least significant first. -/
def natToBits : Nat → Nat → List Bool
  | 0, _ => []
  | w + 1, n => (n % 2 == 1) :: natToBits w (n / 2)

/-- Modelled from the spec: one-byte boolean group write (at most 8 flags). -/
def writeBooleanGroup (flags : List Bool) : List Nat :=
  writeUint8 (bitsToNat flags)

/-- Modelled from the spec: two-byte boolean group write (at most 16 flags). -/
def writeBooleanGroup2 (flags : List Bool) : List Nat :=
  writeUint16 (bitsToNat flags)

/-! ## Stream primitives (read side) -/

/-- Modelled from the spec: 8-bit read; fails on an empty stream. -/
def readUint8 : List Nat → Option (Nat × List Nat)
  | [] => none
  | b :: rest => some (b, rest)

/-- Modelled from the spec: 16-bit little-endian read. -/
def readUint16 : List Nat → Option (Nat × List Nat)
  | b0 :: b1 :: rest => some (b0 + 256 * b1, rest)
  | _ => none

/-- Modelled from the spec: 32-bit little-endian read. -/
def readUint32 : List Nat → Option (Nat × List Nat)
  | b0 :: b1 :: b2 :: b3 :: rest =>
    some (b0 + 256 * b1 + 65536 * b2 + 16777216 * b3, rest)
  | _ => none

/-- Modelled from the spec: 16-bit signed read, two's complement. -/
def readInt16 (bs : List Nat) : Option (Int × List Nat) :=
  match readUint16 bs with
  | none => none
  | some (n, rest) =>
    some ((if n < 32768 then (n : Int) else (n : Int) - 65536), rest)

/-- Read exactly `n` raw bytes; fails when fewer remain. -/
def readBytes (n : Nat) (bs : List Nat) : Option (List Nat × List Nat) :=
  if n ≤ bs.length then some (bs.take n, bs.drop n) else none

/-- Modelled from the spec: bounded string read — reads the declared length
prefix and that many bytes. -/
def readString (maxLength : Nat) (bs : List Nat) : Option (List Nat × List Nat) :=
  match (if maxLength < 256 then readUint8 bs else readUint16 bs) with
  | none => none
  | some (len, rest) => readBytes len rest

/-- Modelled from the spec: one-byte boolean group read, yielding 8 flags. -/
def readBooleanGroup (bs : List Nat) : Option (List Bool × List Nat) :=
  match readUint8 bs with
  | none => none
  | some (v, rest) => some (natToBits 8 v, rest)

/-- Modelled from the spec: two-byte boolean group read, yielding 16 flags. -/
def readBooleanGroup2 (bs : List Nat) : Option (List Bool × List Nat) :=
  match readUint16 bs with
  | none => none
  | some (v, rest) => some (natToBits 16 v, rest)

/-- Conditional read of an optional field: performed only when the governing
presence flag is set; otherwise the field is left absent. -/
def readOpt {α : Type} (reader : List Nat → Option (α × List Nat)) (flag : Bool)
    (bs : List Nat) : Option (Option α × List Nat) :=
  if flag then
    match reader bs with
    | none => none
    | some (v, rest) => some (some v, rest)
  else some (none, bs)

/-- Conditional write of an optional field: emitted only when present. -/
def writeOpt {α : Type} (writer : α → List Nat) : Option α → List Nat
  | some v => writer v
  | none => []

/-! ## Definition-registry codec

Modelled from the spec: a registry reference is the definition's stable
position in its catalog, written byte-aligned (16-bit here); decoding an
index at or beyond the catalog size is a decode error. -/

/-- Modelled from the spec: write a registry reference (its index). -/
def writeRegistry (idx : Nat) : List Nat := writeUint16 idx

/-- Modelled from the spec: read a registry reference for a catalog of `n`
entries; an index `≥ n` is a decode error. -/
def readRegistry (n : Nat) (bs : List Nat) : Option (Nat × List Nat) :=
  match readUint16 bs with
  | none => none
  | some (v, rest) => if v < n then some (v, rest) else none

/-- Modelled from the spec: maximum display-name length (bounded string). -/
def playerNameMaxLength : Nat := 16

/-- Modelled from the spec: bounded display-name write. -/
def writePlayerName (s : List Nat) : List Nat := writeString playerNameMaxLength s

/-- Modelled from the spec: bounded display-name read. -/
def readPlayerName (bs : List Nat) : Option (List Nat × List Nat) :=
  readString playerNameMaxLength bs

/-- Modelled from the spec: protocol version constant written by the join
packet (`GameConstants.protocolVersion`, not in the snapshot). -/
def protocolVersion : Nat := 1

/-! ## Display-name sanitization

`JoinPacket.deserialize` computes
`stream.readPlayerName().split(/<[^>]+>/g).join("").trim()`.
Character code 60 is `<`, 62 is `>`.  The `split`/`join` removes every
(leftmost, non-overlapping) occurrence of `<`, one or more non-`>`
characters, then `>`.  `stripAux` performs that removal in a single
left-to-right scan: `pending` holds a `<` together with the subsequent
non-`>` characters — exactly the prefix the regex's `<[^>]+` has consumed
so far.  When a `>` arrives, a pending run of length at least two (a `<`
plus at least one middle character) is a complete regex match and is
dropped; a pending run of exactly `<` (the input `<>`) or an unterminated
pending run at end of input corresponds to a failed regex match and is
emitted verbatim, as the regex leaves unmatched text untouched. -/

/-- One pass of the tag-stripping regex `/<[^>]+>/g` removal, scanning the
first argument with `pending` as described above.  With an empty `pending`,
a `<` opens a pending run, a `>` and every other character pass through;
with `pending = [<]` a `>` flushes `<>` verbatim (the regex needs a
non-empty middle) while any other character extends the run; with a longer
`pending` a `>` completes the match and drops it, and any other character
extends the run. -/
def stripAux : List Nat → List Nat → List Nat
  | [], pending => pending
  | c :: rest, [] =>
    if c = 62 then 62 :: stripAux rest []
    else if c = 60 then stripAux rest [60]
    else c :: stripAux rest []
  | c :: rest, [p] =>
    if c = 62 then p :: 62 :: stripAux rest []
    else stripAux rest [p, c]
  | c :: rest, p :: q :: ps =>
    if c = 62 then stripAux rest []
    else stripAux rest (p :: q :: ps ++ [c])

/-- `.split(/<[^>]+>/g).join("")` from `JoinPacket.deserialize`. -/
def stripTags (s : List Nat) : List Nat := stripAux s []

/-- JavaScript `String.prototype.trim` whitespace set (space, tab, line
terminators, and the Unicode space separators). -/
def isWs (c : Nat) : Bool :=
  [9, 10, 11, 12, 13, 32, 160, 5760, 8192, 8193, 8194, 8195, 8196, 8197,
    8198, 8199, 8200, 8201, 8202, 8232, 8233, 8239, 8287, 12288, 65279].contains c

/-- Leading-whitespace removal (left half of `trim`). -/
def trimLeft (l : List Nat) : List Nat := l.dropWhile isWs

/-- Trailing-whitespace removal (right half of `trim`). -/
def trimRight (l : List Nat) : List Nat := (l.reverse.dropWhile isWs).reverse

/-- JavaScript `String.prototype.trim`. -/
def trim (l : List Nat) : List Nat := trimRight (trimLeft l)

/-- The whole decode-time sanitization applied to the display name:
`.split(/<[^>]+>/g).join("").trim()`. -/
def sanitizeName (l : List Nat) : List Nat := trim (stripTags l)

/-- Chars after a `<` that complete a regex match `<[^>]+>`: at least one
non-`>` character followed by `>`; returns the remainder after the `>`. -/
def dropTagAux : List Nat → Option (List Nat)
  | [] => none
  | c :: rest => if c = 62 then some rest else dropTagAux rest

/-- `dropTag l = some l'` iff `l` begins with `[^>]+>`; `l'` is the rest. -/
def dropTag : List Nat → Option (List Nat)
  | [] => none
  | c :: rest => if c = 62 then none else dropTagAux rest

/-- Whether a markup-like substring `<`, one or more non-`>` characters,
`>` occurs anywhere in the list. -/
def hasTag : List Nat → Bool
  | [] => false
  | c :: rest => (c == 60 && (dropTag rest).isSome) || hasTag rest

/-! ## Packet payloads and codecs

Translated from the source files.  The compile-time `type` discriminant
field of each payload interface is not part of the field codec (it is
written by the generic packet wrapper) and is omitted from the records. -/

/-- Payload of `MathProblemPacket` (`MathProblemData`). -/
structure MathProblemData where
  problem : List Nat
  rewardType : List Nat
  rewardCount : Nat
  problemId : Nat
deriving DecidableEq, Repr

/-- `MathProblemPacket.serialize` from the source. -/
def mathProblemSerialize (d : MathProblemData) : List Nat :=
  writeString 32 d.problem
  ++ writeString 32 d.rewardType
  ++ writeUint8 d.rewardCount
  ++ writeUint16 d.problemId

/-- `MathProblemPacket.deserialize` from the source. -/
def mathProblemDeserialize (bs : List Nat) : Option (MathProblemData × List Nat) :=
  match readString 32 bs with
  | none => none
  | some (problem, bs) =>
    match readString 32 bs with
    | none => none
    | some (rewardType, bs) =>
      match readUint8 bs with
      | none => none
      | some (rewardCount, bs) =>
        match readUint16 bs with
        | none => none
        | some (problemId, bs) =>
          some (⟨problem, rewardType, rewardCount, problemId⟩, bs)

/-- Payload of `MathAnswerPacket` (`MathAnswerData`). -/
structure MathAnswerData where
  answer : Int
  problemId : Nat
deriving DecidableEq, Repr

/-- `MathAnswerPacket.serialize` from the source. -/
def mathAnswerSerialize (d : MathAnswerData) : List Nat :=
  writeInt16 d.answer ++ writeUint16 d.problemId

/-- `MathAnswerPacket.deserialize` from the source. -/
def mathAnswerDeserialize (bs : List Nat) : Option (MathAnswerData × List Nat) :=
  match readInt16 bs with
  | none => none
  | some (answer, bs) =>
    match readUint16 bs with
    | none => none
    | some (problemId, bs) => some (⟨answer, problemId⟩, bs)

/-- Payload of `MathFeedbackPacket` (`MathFeedbackData`); `xpEarned` and
`totalXP` are optional. -/
structure MathFeedbackData where
  isCorrect : Bool
  problemId : Nat
  xpEarned : Option Nat
  totalXP : Option Nat
deriving DecidableEq, Repr

/-- `MathFeedbackPacket.serialize` from the source: a three-flag boolean
group (`isCorrect`, presence of `xpEarned`, presence of `totalXP`), the
16-bit `problemId`, then each optional field only when present. -/
def mathFeedbackSerialize (d : MathFeedbackData) : List Nat :=
  writeBooleanGroup [d.isCorrect, d.xpEarned.isSome, d.totalXP.isSome]
  ++ writeUint16 d.problemId
  ++ writeOpt writeUint16 d.xpEarned
  ++ writeOpt writeUint32 d.totalXP

/-- `MathFeedbackPacket.deserialize` from the source. -/
def mathFeedbackDeserialize (bs : List Nat) : Option (MathFeedbackData × List Nat) :=
  match readBooleanGroup bs with
  | none => none
  | some (fl, bs) =>
    match readUint16 bs with
    | none => none
    | some (problemId, bs) =>
      match readOpt readUint16 (fl.getD 1 false) bs with
      | none => none
      | some (xpEarned, bs) =>
        match readOpt readUint32 (fl.getD 2 false) bs with
        | none => none
        | some (totalXP, bs) =>
          some (⟨fl.getD 0 false, problemId, xpEarned, totalXP⟩, bs)

/-- Payload the game constructs for a `JoinPacket`
(`JoinPacketCreation = Omit<JoinData, "protocolVersion">`); the protocol
version is set by `serialize` itself.  Definition references (skin, badge,
emotes) are modelled as registry indices. -/
structure JoinPacketCreation where
  name : List Nat
  isMobile : Bool
  skin : Nat
  badge : Option Nat
  emotes : List (Option Nat)
  authToken : Option (List Nat)
  studentId : Option (List Nat)
deriving DecidableEq, Repr

/-- Decoded payload of a `JoinPacket` (`JoinData`). -/
structure JoinData where
  protocolVersion : Nat
  name : List Nat
  isMobile : Bool
  skin : Nat
  badge : Option Nat
  emotes : List (Option Nat)
  authToken : Option (List Nat)
  studentId : Option (List Nat)
deriving DecidableEq, Repr

/-- The source's `for (let i = 0; i < 6; i++) { ... if undefined continue;
Emotes.writeToStream(stream, emote) }`, applied to the first six emote
slots. -/
def writeEmotes : List (Option Nat) → List Nat
  | [] => []
  | some e :: rest => writeRegistry e ++ writeEmotes rest
  | none :: rest => writeEmotes rest

/-- The source's emote read loop: for each of the six flags, read an emote
reference only when the flag is set, leaving the slot absent otherwise. -/
def readEmotes (nEmotes : Nat) : List Bool → List Nat → Option (List (Option Nat) × List Nat)
  | [], bs => some ([], bs)
  | f :: fs, bs =>
    if f then
      match readRegistry nEmotes bs with
      | none => none
      | some (e, bs) =>
        match readEmotes nEmotes fs bs with
        | none => none
        | some (es, bs) => some (some e :: es, bs)
    else
      match readEmotes nEmotes fs bs with
      | none => none
      | some (es, bs) => some (none :: es, bs)

/-- The six emote slots the serializer examines (`emotes[0]`..`emotes[5]`). -/
def emoteSlots (emotes : List (Option Nat)) : List (Option Nat) :=
  [emotes.getD 0 none, emotes.getD 1 none, emotes.getD 2 none,
    emotes.getD 3 none, emotes.getD 4 none, emotes.getD 5 none]

/-- `JoinPacket.serialize` from the source: a ten-flag boolean group
(`isMobile`, presence of badge / auth token / student id, presence of each
of six emotes), the protocol version, the bounded player name, the skin
reference, then each optional field only when its flag is set, in that
order. -/
def joinSerialize (d : JoinPacketCreation) : List Nat :=
  writeBooleanGroup2
    [d.isMobile, d.badge.isSome, d.authToken.isSome, d.studentId.isSome,
      (d.emotes.getD 0 none).isSome, (d.emotes.getD 1 none).isSome,
      (d.emotes.getD 2 none).isSome, (d.emotes.getD 3 none).isSome,
      (d.emotes.getD 4 none).isSome, (d.emotes.getD 5 none).isSome]
  ++ writeUint16 protocolVersion
  ++ writePlayerName d.name
  ++ writeRegistry d.skin
  ++ writeOpt writeRegistry d.badge
  ++ writeOpt (writeString 256) d.authToken
  ++ writeOpt (writeString 64) d.studentId
  ++ writeEmotes (emoteSlots d.emotes)

/-- `JoinPacket.deserialize` from the source, parameterized by the sizes of
the Loots, Badges, and Emotes registries.  The display name is sanitized on
decode (`.split(/<[^>]+>/g).join("").trim()`); the decoded emote array has
eight slots of which only the first six are ever populated. -/
def joinDeserialize (nLoots nBadges nEmotes : Nat) (bs : List Nat) :
    Option (JoinData × List Nat) :=
  match readBooleanGroup2 bs with
  | none => none
  | some (fl, bs) =>
    match readUint16 bs with
    | none => none
    | some (protocolVersion, bs) =>
      match readPlayerName bs with
      | none => none
      | some (rawName, bs) =>
        match readRegistry nLoots bs with
        | none => none
        | some (skin, bs) =>
          match readOpt (readRegistry nBadges) (fl.getD 1 false) bs with
          | none => none
          | some (badge, bs) =>
            match readOpt (readString 256) (fl.getD 2 false) bs with
            | none => none
            | some (authToken, bs) =>
              match readOpt (readString 64) (fl.getD 3 false) bs with
              | none => none
              | some (studentId, bs) =>
                match readEmotes nEmotes ((fl.drop 4).take 6) bs with
                | none => none
                | some (emotes, bs) =>
                  some (⟨protocolVersion, sanitizeName rawName,
                    fl.getD 0 false, skin, badge, emotes ++ [none, none],
                    authToken, studentId⟩, bs)

/-! ## MathProblemManager

Translated from `server/src/mathProblemManager.ts`.  The manager's
`random(min, max)` helper is not in the snapshot; modelled from the spec's
exclusion of game-rule randomness, each call's outcome is supplied as a
nondeterministic draw parameter reduced into the call's documented range
(`min + draw % (max - min + 1)`), so every theorem quantifies over all
possible draws. -/

/-- Character codes of a string literal. -/
def strCodes (s : String) : List Nat := s.data.map Char.toNat

/-- Decimal character codes of a number, as interpolated into the problem
text. -/
def natChars (n : Nat) : List Nat := strCodes (Nat.repr n)

/-- A generated math problem (`MathProblem`). -/
structure MathProblem where
  problem : List Nat
  answer : Int
  rewardType : List Nat
  rewardCount : Nat
  problemId : Nat
deriving DecidableEq, Repr

/-- One outcome of every random draw `generateProblem` can make. -/
structure Draws where
  num1 : Nat
  num2 : Nat
  op : Nat
  result : Nat
  divisor : Nat
  rewardIdx : Nat
  rewardCountDraw : Nat
deriving DecidableEq, Repr

/-- The manager's consumable reward catalog, in source order. -/
def consumableItems : List (List Nat) :=
  [strCodes "gauze", strCodes "medikit", strCodes "cola", strCodes "tablets",
    strCodes "12g", strCodes "556mm", strCodes "762mm", strCodes "9mm",
    strCodes "frag_grenade", strCodes "smoke_grenade"]

/-- `MathProblemManager.getRewardCount`: a per-item random count in the
documented range (the draw is reduced into that range). -/
def getRewardCount (itemType : List Nat) (draw : Nat) : Nat :=
  if itemType = strCodes "gauze" then 2 + draw % 4
  else if itemType = strCodes "medikit" then 1
  else if itemType = strCodes "cola" then 1
  else if itemType = strCodes "tablets" then 1
  else if itemType = strCodes "12g" then 5 + draw % 11
  else if itemType = strCodes "556mm" ∨ itemType = strCodes "762mm"
    ∨ itemType = strCodes "9mm" then 10 + draw % 21
  else if itemType = strCodes "frag_grenade"
    ∨ itemType = strCodes "smoke_grenade" then 1 + draw % 2
  else 1

/-- Manager state: the player-id-to-problem map and the next problem id. -/
structure ManagerState where
  activeProblem : List (Nat × MathProblem)
  nextProblemId : Nat
deriving DecidableEq, Repr

/-- `Map.set`: replace any entry for the key, keeping one binding. -/
def mapSet (m : List (Nat × MathProblem)) (k : Nat) (v : MathProblem) :
    List (Nat × MathProblem) :=
  m.filter (fun e => !(e.1 == k)) ++ [(k, v)]

/-- `Map.delete`. -/
def mapDelete (m : List (Nat × MathProblem)) (k : Nat) : List (Nat × MathProblem) :=
  m.filter (fun e => !(e.1 == k))

/-- `MathProblemManager.generateProblem`: single-digit operands
(`random(1, 9)` modelled as `1 + draw % 9`), an operation selector with the
source's four cases and a defaulting fallback, subtraction ordered so the
result is non-negative, division built from `result * divisor` so the
quotient is exact.  Codes 43, 45, 215, 247 are `+`, `-`, `×`, `÷`; code 32
is the space around the operator.  Returns the problem and the updated
manager state (new problem id, `activeProblem` entry set). -/
def generateProblem (st : ManagerState) (playerId : Nat) (d : Draws) :
    MathProblem × ManagerState :=
  let num1 := 1 + d.num1 % 9
  let num2 := 1 + d.num2 % 9
  let pa : (List Nat × Int) :=
    match d.op with
    | 0 => (natChars num1 ++ [32, 43, 32] ++ natChars num2, (num1 + num2 : Nat))
    | 1 =>
      let larger := max num1 num2
      let smaller := min num1 num2
      (natChars larger ++ [32, 45, 32] ++ natChars smaller,
        (larger : Int) - (smaller : Int))
    | 2 => (natChars num1 ++ [32, 215, 32] ++ natChars num2, (num1 * num2 : Nat))
    | 3 =>
      let result := 1 + d.result % 9
      let divisor := 1 + d.divisor % 9
      let dividend := result * divisor
      (natChars dividend ++ [32, 247, 32] ++ natChars divisor, (result : Nat))
    | _ => (natChars num1 ++ [32, 43, 32] ++ natChars num2, (num1 + num2 : Nat))
  let rewardType := consumableItems.getD (d.rewardIdx % 10) []
  let rewardCount := getRewardCount rewardType d.rewardCountDraw
  let problemId := st.nextProblemId
  let p : MathProblem := ⟨pa.1, pa.2, rewardType, rewardCount, problemId⟩
  (p, ⟨mapSet st.activeProblem playerId p, st.nextProblemId + 1⟩)

/-- Player state touched by `validateAnswer`: the consumable inventory, the
`dirty.items` flag, and the packets sent to the player. -/
structure PlayerState where
  id : Nat
  inventory : List (List Nat × Nat)
  dirtyItems : Bool
  sent : List MathProblemData
deriving DecidableEq, Repr

/-- `inventory.items.getItem`: current count of an item, zero when absent. -/
def getItem (inv : List (List Nat × Nat)) (item : List Nat) : Nat :=
  ((inv.find? (fun e => e.1 == item)).map (·.2)).getD 0

/-- `inventory.items.setItem`: update the item's count (adding the entry
when absent). -/
def setItem (inv : List (List Nat × Nat)) (item : List Nat) (v : Nat) :
    List (List Nat × Nat) :=
  if (inv.find? (fun e => e.1 == item)).isSome
    then inv.map (fun e => if e.1 == item then (e.1, v) else e)
    else inv ++ [(item, v)]

/-- `MathProblemManager.validateAnswer`: false (leaving all state alone)
when the player has no active problem, when the submitted problem id does
not match, or when the answer is wrong; on a correct answer awards the
reward, marks items dirty, replaces the active problem with a freshly
generated one, and sends the new problem packet. -/
def validateAnswer (st : ManagerState) (pl : PlayerState) (answer : Int)
    (problemId : Nat) (d : Draws) : Bool × ManagerState × PlayerState :=
  match st.activeProblem.lookup pl.id with
  | none => (false, st, pl)
  | some p =>
    if p.problemId ≠ problemId then (false, st, pl)
    else if p.answer = answer then
      let inv := setItem pl.inventory p.rewardType
        (getItem pl.inventory p.rewardType + p.rewardCount)
      let st1 : ManagerState := ⟨mapDelete st.activeProblem pl.id, st.nextProblemId⟩
      let gen := generateProblem st1 pl.id d
      let newPacket : MathProblemData :=
        ⟨gen.1.problem, gen.1.rewardType, gen.1.rewardCount, gen.1.problemId⟩
      (true, gen.2,
        { pl with inventory := inv, dirtyItems := true, sent := pl.sent ++ [newPacket] })
    else (false, st, pl)

/-! ## Valid payloads

A payload is valid when every field fits its wire width: string character
codes are bytes and lengths within the field bound, integers within their
fixed width, registry indices within their catalog, and — for the join
packet — the name already sanitized (sanitization is decode-time, so only
sanitized names survive a round trip) and the emote array in the shape the
codec produces (eight slots, the last two never populated). -/

/-- A string fits a bounded-string field of maximum length `m`. -/
def validStr (m : Nat) (s : List Nat) : Bool :=
  decide (s.length ≤ m) && s.all (fun c => decide (c < 256))

/-- Valid `MathProblemData` payload. -/
def validMathProblem (d : MathProblemData) : Bool :=
  validStr 32 d.problem && validStr 32 d.rewardType
    && decide (d.rewardCount < 256) && decide (d.problemId < 65536)

/-- Valid `MathAnswerData` payload. -/
def validMathAnswer (d : MathAnswerData) : Bool :=
  decide (-32768 ≤ d.answer) && decide (d.answer ≤ 32767)
    && decide (d.problemId < 65536)

/-- Valid `MathFeedbackData` payload. -/
def validMathFeedback (d : MathFeedbackData) : Bool :=
  decide (d.problemId < 65536)
    && d.xpEarned.all (fun v => decide (v < 65536))
    && d.totalXP.all (fun v => decide (v < 4294967296))

/-- Valid `JoinPacketCreation` payload, for registries of the given sizes. -/
def validJoin (nLoots nBadges nEmotes : Nat) (d : JoinPacketCreation) : Bool :=
  validStr playerNameMaxLength d.name
    && (sanitizeName d.name == d.name)
    && decide (d.skin < nLoots)
    && d.badge.all (fun b => decide (b < nBadges))
    && d.authToken.all (validStr 256)
    && d.studentId.all (validStr 64)
    && decide (d.emotes.length = 8)
    && (d.emotes.getD 6 none).isNone
    && (d.emotes.getD 7 none).isNone
    && d.emotes.all (fun o => o.all (fun e => decide (e < nEmotes)))

/-- The payload `JoinPacket.deserialize` reconstructs from a serialized
creation payload: every field the creation set, plus the protocol version
the serializer writes. -/
def joinDataOf (d : JoinPacketCreation) : JoinData :=
  ⟨protocolVersion, d.name, d.isMobile, d.skin, d.badge, d.emotes,
    d.authToken, d.studentId⟩

/-! ## Read/write inverse lemmas for the stream primitives -/

theorem readUint8_writeUint8 (v : Nat) (rest : List Nat) :
    readUint8 (writeUint8 v ++ rest) = some (v % 256, rest) := rfl

theorem readUint16_writeUint16 (v : Nat) (rest : List Nat) :
    readUint16 (writeUint16 v ++ rest) = some (v % 65536, rest) := by
  simp only [writeUint16, List.cons_append, List.nil_append, readUint16,
    Option.some.injEq, Prod.mk.injEq, and_true]
  omega

theorem readUint32_writeUint32 (v : Nat) (rest : List Nat) :
    readUint32 (writeUint32 v ++ rest) = some (v % 4294967296, rest) := by
  simp only [writeUint32, List.cons_append, List.nil_append, readUint32,
    Option.some.injEq, Prod.mk.injEq, and_true]
  omega

theorem readInt16_writeInt16 (a : Int) (rest : List Nat)
    (h1 : -32768 ≤ a) (h2 : a ≤ 32767) :
    readInt16 (writeInt16 a ++ rest) = some (a, rest) := by
  unfold writeInt16 readInt16
  rw [readUint16_writeUint16]
  have h0 : (0 : Int) ≤ a % 65536 := Int.emod_nonneg a (by norm_num)
  have h3 : a % 65536 < 65536 := Int.emod_lt_of_pos a (by norm_num)
  have hmod : (a % 65536).toNat % 65536 = (a % 65536).toNat :=
    Nat.mod_eq_of_lt (by omega)
  rw [hmod]
  refine congrArg (fun x => some (x, rest)) ?_
  split <;> omega

theorem mapMod_eq (s : List Nat) (h : ∀ c ∈ s, c < 256) :
    s.map (fun c => c % 256) = s := by
  induction s with
  | nil => rfl
  | cons c t ih =>
    simp only [List.map_cons, List.cons.injEq]
    exact ⟨Nat.mod_eq_of_lt (h c (List.mem_cons_self _ _)),
      ih fun x hx => h x (List.mem_cons_of_mem _ hx)⟩

theorem readBytes_append (a rest : List Nat) :
    readBytes a.length (a ++ rest) = some (a, rest) := by
  unfold readBytes
  rw [if_pos (by simp)]
  rw [List.take_left, List.drop_left]

theorem readString_writeString (m : Nat) (s rest : List Nat) (hm : m < 65536)
    (hc : ∀ c ∈ s, c < 256) :
    readString m (writeString m s ++ rest) = some (s.take m, rest) := by
  have hmap : (s.take m).map (fun c => c % 256) = s.take m :=
    mapMod_eq _ (fun c hcm => hc c (List.mem_of_mem_take hcm))
  have hlen : (s.take m).length = min s.length m := by
    rw [List.length_take]; omega
  unfold readString writeString
  rw [hmap]
  by_cases hsm : m < 256
  · rw [if_pos hsm, if_pos hsm, List.append_assoc, readUint8_writeUint8,
      Nat.mod_eq_of_lt (by omega)]
    show readBytes (min s.length m) (s.take m ++ rest) = some (s.take m, rest)
    rw [← hlen, readBytes_append]
  · rw [if_neg hsm, if_neg hsm, List.append_assoc, readUint16_writeUint16,
      Nat.mod_eq_of_lt (by omega)]
    show readBytes (min s.length m) (s.take m ++ rest) = some (s.take m, rest)
    rw [← hlen, readBytes_append]

theorem natToBits_length (w n : Nat) : (natToBits w n).length = w := by
  induction w generalizing n with
  | zero => rfl
  | succ w ih => simp [natToBits, ih]

theorem natToBits_zero (w : Nat) : natToBits w 0 = List.replicate w false := by
  induction w with
  | zero => rfl
  | succ w ih => simp [natToBits, List.replicate, ih]

theorem bitsToNat_lt (fl : List Bool) : bitsToNat fl < 2 ^ fl.length := by
  induction fl with
  | nil => simp [bitsToNat]
  | cons b t ih =>
    simp only [bitsToNat, List.length_cons, pow_succ]
    cases b <;> simp only [Bool.toNat_false, Bool.toNat_true] <;> omega

theorem natToBits_bitsToNat (fl : List Bool) (w : Nat) (h : fl.length ≤ w) :
    natToBits w (bitsToNat fl) = fl ++ List.replicate (w - fl.length) false := by
  induction fl generalizing w with
  | nil => simp [bitsToNat, natToBits_zero]
  | cons b t ih =>
    cases w with
    | zero => simp at h
    | succ w =>
      have hlen : t.length ≤ w := by simp at h; omega
      simp only [natToBits, bitsToNat]
      have hhead : ((b.toNat + 2 * bitsToNat t) % 2 == 1) = b := by
        cases b
        · simp only [Bool.toNat_false]
          rw [show (0 + 2 * bitsToNat t) % 2 = 0 by omega]
          rfl
        · simp only [Bool.toNat_true]
          rw [show (1 + 2 * bitsToNat t) % 2 = 1 by omega]
          rfl
      have htail : (b.toNat + 2 * bitsToNat t) / 2 = bitsToNat t := by
        cases b <;> simp only [Bool.toNat_false, Bool.toNat_true] <;> omega
      rw [hhead, htail, ih w hlen]
      simp only [List.cons_append, List.length_cons, Nat.succ_sub_succ]

theorem readBooleanGroup_write (fl : List Bool) (rest : List Nat)
    (h : fl.length ≤ 8) :
    readBooleanGroup (writeBooleanGroup fl ++ rest)
      = some (fl ++ List.replicate (8 - fl.length) false, rest) := by
  have hp : (2 : Nat) ^ fl.length ≤ 2 ^ 8 := Nat.pow_le_pow_right (by norm_num) h
  have hlt : bitsToNat fl < 256 := by have := bitsToNat_lt fl; omega
  unfold readBooleanGroup writeBooleanGroup
  rw [readUint8_writeUint8, Nat.mod_eq_of_lt hlt]
  show some (natToBits 8 (bitsToNat fl), rest) = _
  rw [natToBits_bitsToNat fl 8 h]

theorem readBooleanGroup2_write (fl : List Bool) (rest : List Nat)
    (h : fl.length ≤ 16) :
    readBooleanGroup2 (writeBooleanGroup2 fl ++ rest)
      = some (fl ++ List.replicate (16 - fl.length) false, rest) := by
  have hp : (2 : Nat) ^ fl.length ≤ 2 ^ 16 := Nat.pow_le_pow_right (by norm_num) h
  have hlt : bitsToNat fl < 65536 := by have := bitsToNat_lt fl; omega
  unfold readBooleanGroup2 writeBooleanGroup2
  rw [readUint16_writeUint16, Nat.mod_eq_of_lt hlt]
  show some (natToBits 16 (bitsToNat fl), rest) = _
  rw [natToBits_bitsToNat fl 16 h]

theorem readRegistry_write (n idx : Nat) (rest : List Nat)
    (hidx : idx < n) (hn : n ≤ 65536) :
    readRegistry n (writeRegistry idx ++ rest) = some (idx, rest) := by
  unfold readRegistry writeRegistry
  rw [readUint16_writeUint16, Nat.mod_eq_of_lt (by omega)]
  show (if idx < n then some (idx, rest) else none) = some (idx, rest)
  rw [if_pos hidx]

theorem readOpt_write {α : Type} (reader : List Nat → Option (α × List Nat))
    (writer : α → List Nat) (o : Option α) (rest : List Nat)
    (h : ∀ v, o = some v → reader (writer v ++ rest) = some (v, rest)) :
    readOpt reader o.isSome (writeOpt writer o ++ rest) = some (o, rest) := by
  cases o with
  | none => simp [readOpt, writeOpt]
  | some v => simp [readOpt, writeOpt, h v rfl]

theorem readEmotes_write (nE : Nat) (es : List (Option Nat)) (rest : List Nat)
    (hn : nE ≤ 65536) (hv : ∀ o ∈ es, ∀ e, o = some e → e < nE) :
    readEmotes nE (es.map Option.isSome) (writeEmotes es ++ rest)
      = some (es, rest) := by
  induction es with
  | nil => simp [readEmotes, writeEmotes]
  | cons o t ih =>
    have ht : ∀ o ∈ t, ∀ e, o = some e → e < nE :=
      fun o ho e he => hv o (List.mem_cons_of_mem _ ho) e he
    cases o with
    | none => simp [writeEmotes, readEmotes, ih ht]
    | some e =>
      have he : e < nE := hv (some e) (List.mem_cons_self _ _) e rfl
      simp [writeEmotes, readEmotes, List.append_assoc,
        readRegistry_write nE e _ he hn, ih ht]

/-! ## Packet round trips -/

theorem optAll_some {α : Type} (p : α → Bool) (o : Option α) (v : α)
    (h : o.all p = true) (hv : o = some v) : p v = true := by
  subst hv; simpa [Option.all] using h

theorem mathProblem_roundtrip (d : MathProblemData) (rest : List Nat)
    (h : validMathProblem d = true) :
    mathProblemDeserialize (mathProblemSerialize d ++ rest) = some (d, rest) := by
  simp only [validMathProblem, validStr, Bool.and_eq_true, List.all_eq_true,
    decide_eq_true_eq] at h
  obtain ⟨⟨⟨⟨hplen, hpall⟩, ⟨hrlen, hrall⟩⟩, hcnt⟩, hid⟩ := h
  unfold mathProblemSerialize mathProblemDeserialize
  simp only [List.append_assoc]
  simp [readString_writeString 32 d.problem _ (by norm_num) hpall,
    readString_writeString 32 d.rewardType _ (by norm_num) hrall,
    readUint8_writeUint8, readUint16_writeUint16,
    Nat.mod_eq_of_lt hcnt, Nat.mod_eq_of_lt hid,
    List.take_of_length_le hplen, List.take_of_length_le hrlen]

theorem mathAnswer_roundtrip (d : MathAnswerData) (rest : List Nat)
    (h : validMathAnswer d = true) :
    mathAnswerDeserialize (mathAnswerSerialize d ++ rest) = some (d, rest) := by
  simp only [validMathAnswer, Bool.and_eq_true, decide_eq_true_eq] at h
  obtain ⟨⟨hlo, hhi⟩, hid⟩ := h
  unfold mathAnswerSerialize mathAnswerDeserialize
  simp only [List.append_assoc]
  simp [readInt16_writeInt16 d.answer _ hlo hhi, readUint16_writeUint16,
    Nat.mod_eq_of_lt hid]

theorem mathFeedback_roundtrip (d : MathFeedbackData) (rest : List Nat)
    (h : validMathFeedback d = true) :
    mathFeedbackDeserialize (mathFeedbackSerialize d ++ rest) = some (d, rest) := by
  simp only [validMathFeedback, Bool.and_eq_true, decide_eq_true_eq] at h
  obtain ⟨⟨hid, hxp⟩, htot⟩ := h
  have hx : ∀ r, readOpt readUint16 d.xpEarned.isSome
      (writeOpt writeUint16 d.xpEarned ++ r) = some (d.xpEarned, r) := by
    intro r
    refine readOpt_write _ _ _ _ fun v hv => ?_
    have hvlt : v < 65536 := by
      simpa using optAll_some _ _ _ hxp hv
    rw [readUint16_writeUint16, Nat.mod_eq_of_lt hvlt]
  have ht : ∀ r, readOpt readUint32 d.totalXP.isSome
      (writeOpt writeUint32 d.totalXP ++ r) = some (d.totalXP, r) := by
    intro r
    refine readOpt_write _ _ _ _ fun v hv => ?_
    have hvlt : v < 4294967296 := by
      simpa using optAll_some _ _ _ htot hv
    rw [readUint32_writeUint32, Nat.mod_eq_of_lt hvlt]
  have hbg : ∀ r, readBooleanGroup
      (writeBooleanGroup [d.isCorrect, d.xpEarned.isSome, d.totalXP.isSome] ++ r)
      = some ([d.isCorrect, d.xpEarned.isSome, d.totalXP.isSome,
          false, false, false, false, false], r) := by
    intro r
    rw [readBooleanGroup_write _ r (by simp)]
    rfl
  unfold mathFeedbackSerialize mathFeedbackDeserialize
  simp only [List.append_assoc]
  simp [hbg, hx, ht, readUint16_writeUint16, Nat.mod_eq_of_lt hid]

theorem join_roundtrip (nL nB nE : Nat) (hL : nL ≤ 65536) (hB : nB ≤ 65536)
    (hE : nE ≤ 65536) (d : JoinPacketCreation) (rest : List Nat)
    (h : validJoin nL nB nE d = true) :
    joinDeserialize nL nB nE (joinSerialize d ++ rest)
      = some (joinDataOf d, rest) := by
  obtain ⟨name, isMobile, skin, badge, emotes, authToken, studentId⟩ := d
  simp only [validJoin, validStr, Bool.and_eq_true, List.all_eq_true,
    decide_eq_true_eq, beq_iff_eq, Option.isNone_iff_eq_none] at h
  obtain ⟨⟨⟨⟨⟨⟨⟨⟨⟨⟨hnlen, hnall⟩, hsan⟩, hskin⟩, hbadge⟩, hauth⟩, hsid⟩,
    hlen8⟩, h6⟩, h7⟩, hemo⟩ := h
  rcases emotes with _ | ⟨o0, _ | ⟨o1, _ | ⟨o2, _ | ⟨o3, _ | ⟨o4,
    _ | ⟨o5, _ | ⟨o6, _ | ⟨o7, tl⟩⟩⟩⟩⟩⟩⟩⟩ <;>
    simp only [List.length_cons, List.length_nil] at hlen8 <;> try omega
  obtain rfl : tl = [] := List.length_eq_zero.mp (by omega)
  have hg6 : ([o0, o1, o2, o3, o4, o5, o6, o7] : List (Option Nat)).getD 6 none
      = o6 := rfl
  have hg7 : ([o0, o1, o2, o3, o4, o5, o6, o7] : List (Option Nat)).getD 7 none
      = o7 := rfl
  rw [hg6] at h6
  rw [hg7] at h7
  subst h6
  subst h7
  have hv6 : ∀ o ∈ ([o0, o1, o2, o3, o4, o5] : List (Option Nat)),
      ∀ e, o = some e → e < nE := by
    intro o ho e he
    have hmem : o ∈ ([o0, o1, o2, o3, o4, o5, none, none] : List (Option Nat)) := by
      simp only [List.mem_cons, List.not_mem_nil, or_false] at ho ⊢
      tauto
    have := hemo o hmem
    subst he
    simpa using this
  have hbg : ∀ r, readBooleanGroup2 (writeBooleanGroup2
      [isMobile, badge.isSome, authToken.isSome, studentId.isSome,
        o0.isSome, o1.isSome, o2.isSome, o3.isSome, o4.isSome, o5.isSome] ++ r)
      = some ([isMobile, badge.isSome, authToken.isSome, studentId.isSome,
          o0.isSome, o1.isSome, o2.isSome, o3.isSome, o4.isSome, o5.isSome,
          false, false, false, false, false, false], r) := by
    intro r
    rw [readBooleanGroup2_write _ r (by simp)]
    rfl
  have hpv : ∀ r, readUint16 (writeUint16 protocolVersion ++ r)
      = some (protocolVersion, r) := by
    intro r
    rw [readUint16_writeUint16]
    rfl
  have hname : ∀ r, readPlayerName (writePlayerName name ++ r) = some (name, r) := by
    intro r
    unfold readPlayerName writePlayerName playerNameMaxLength
    rw [readString_writeString 16 name r (by norm_num) hnall,
      List.take_of_length_le (show name.length ≤ 16 from hnlen)]
  have hsk : ∀ r, readRegistry nL (writeRegistry skin ++ r) = some (skin, r) :=
    fun r => readRegistry_write nL skin r hskin hL
  have hbd : ∀ r, readOpt (readRegistry nB) badge.isSome
      (writeOpt writeRegistry badge ++ r) = some (badge, r) := by
    intro r
    refine readOpt_write _ _ _ _ fun v hv => ?_
    have hvlt : v < nB := by simpa using optAll_some _ _ _ hbadge hv
    exact readRegistry_write nB v r hvlt hB
  have hat : ∀ r, readOpt (readString 256) authToken.isSome
      (writeOpt (writeString 256) authToken ++ r) = some (authToken, r) := by
    intro r
    refine readOpt_write _ _ _ _ fun v hv => ?_
    have hvv := optAll_some _ _ _ hauth hv
    simp only [validStr, Bool.and_eq_true, List.all_eq_true,
      decide_eq_true_eq] at hvv
    rw [readString_writeString 256 v r (by norm_num) hvv.2,
      List.take_of_length_le hvv.1]
  have hst : ∀ r, readOpt (readString 64) studentId.isSome
      (writeOpt (writeString 64) studentId ++ r) = some (studentId, r) := by
    intro r
    refine readOpt_write _ _ _ _ fun v hv => ?_
    have hvv := optAll_some _ _ _ hsid hv
    simp only [validStr, Bool.and_eq_true, List.all_eq_true,
      decide_eq_true_eq] at hvv
    rw [readString_writeString 64 v r (by norm_num) hvv.2,
      List.take_of_length_le hvv.1]
  have hem : ∀ r, readEmotes nE
      [o0.isSome, o1.isSome, o2.isSome, o3.isSome, o4.isSome, o5.isSome]
      (writeEmotes [o0, o1, o2, o3, o4, o5] ++ r)
      = some ([o0, o1, o2, o3, o4, o5], r) := by
    intro r
    have := readEmotes_write nE [o0, o1, o2, o3, o4, o5] r hE hv6
    simpa using this
  unfold joinSerialize joinDeserialize joinDataOf emoteSlots
  simp only [List.append_assoc]
  simp [hbg, hpv, hname, hsk, hbd, hat, hst, hem, hsan]

/-! ## Sanitization: the decoded display name has no markup-like substring
and no edge whitespace -/

theorem dropTagAux_eq_none (l : List Nat) (h : 62 ∉ l) : dropTagAux l = none := by
  induction l with
  | nil => rfl
  | cons c t ih =>
    simp only [List.mem_cons, not_or] at h
    have hc : ¬ c = 62 := fun hc => h.1 hc.symm
    simp [dropTagAux, hc, ih h.2]

theorem dropTag_eq_none (l : List Nat) (h : 62 ∉ l) : dropTag l = none := by
  cases l with
  | nil => rfl
  | cons c t =>
    simp only [List.mem_cons, not_or] at h
    have hc : ¬ c = 62 := fun hc => h.1 hc.symm
    simp [dropTag, hc, dropTagAux_eq_none t h.2]

theorem hasTag_of_not_mem (l : List Nat) (h : 62 ∉ l) : hasTag l = false := by
  induction l with
  | nil => rfl
  | cons c t ih =>
    simp only [List.mem_cons, not_or] at h
    simp [hasTag, ih h.2, dropTag_eq_none t h.2]

theorem hasTag_stripAux (s : List Nat) : ∀ pending : List Nat,
    (pending = [] ∨ ∃ t, pending = 60 :: t ∧ 62 ∉ t) →
    hasTag (stripAux s pending) = false := by
  induction s with
  | nil =>
    intro pending hp
    rcases hp with rfl | ⟨t, rfl, ht⟩
    · rfl
    · show hasTag (60 :: t) = false
      simp [hasTag, dropTag_eq_none t ht, hasTag_of_not_mem t ht]
  | cons c rest ih =>
    intro pending hp
    rcases hp with rfl | ⟨t, rfl, ht⟩
    · by_cases h62 : c = 62
      · subst h62
        simp only [stripAux, if_pos rfl]
        simp [hasTag, ih [] (Or.inl rfl)]
      · by_cases h60 : c = 60
        · subst h60
          simp only [stripAux, if_neg (show ¬(60 = 62) by decide), if_pos rfl]
          exact ih [60] (Or.inr ⟨[], rfl, List.not_mem_nil 62⟩)
        · simp only [stripAux, if_neg h62, if_neg h60]
          have hc : (c == 60) = false := by simp [h60]
          simp [hasTag, ih [] (Or.inl rfl), hc]
    · cases t with
      | nil =>
        by_cases h62 : c = 62
        · subst h62
          simp only [stripAux, if_pos rfl]
          simp [hasTag, dropTag, ih [] (Or.inl rfl)]
        · simp only [stripAux, if_neg h62]
          apply ih [60, c]
          refine Or.inr ⟨[c], rfl, ?_⟩
          intro hm
          exact h62 (List.mem_singleton.mp hm).symm
      | cons q ts =>
        by_cases h62 : c = 62
        · subst h62
          simp only [stripAux, if_pos rfl]
          exact ih [] (Or.inl rfl)
        · simp only [stripAux, if_neg h62]
          apply ih (60 :: q :: ts ++ [c])
          refine Or.inr ⟨q :: (ts ++ [c]), rfl, ?_⟩
          show (62 : Nat) ∉ (q :: ts) ++ [c]
          intro hm
          rcases List.mem_append.mp hm with hm | hm
          · exact ht hm
          · exact h62 (List.mem_singleton.mp hm).symm

theorem hasTag_stripTags (s : List Nat) : hasTag (stripTags s) = false :=
  hasTag_stripAux s [] (Or.inl rfl)

theorem dropTagAux_append (t b r : List Nat) (h : dropTagAux t = some r) :
    dropTagAux (t ++ b) = some (r ++ b) := by
  induction t with
  | nil => simp [dropTagAux] at h
  | cons c tt ih =>
    by_cases hc : c = 62
    · subst hc
      simp [dropTagAux] at h ⊢
      rw [h]
    · simp only [dropTagAux, if_neg hc] at h
      simp only [List.cons_append, dropTagAux, if_neg hc]
      exact ih h

theorem dropTag_append (t b r : List Nat) (h : dropTag t = some r) :
    dropTag (t ++ b) = some (r ++ b) := by
  cases t with
  | nil => simp [dropTag] at h
  | cons c tt =>
    by_cases hc : c = 62
    · simp [dropTag, hc] at h
    · simp only [dropTag, if_neg hc] at h
      simp only [List.cons_append, dropTag, if_neg hc]
      exact dropTagAux_append tt b r h

theorem hasTag_append_prefix (t b : List Nat) (h : hasTag (t ++ b) = false) :
    hasTag t = false := by
  induction t with
  | nil => rfl
  | cons c tt ih =>
    simp only [List.cons_append, hasTag, Bool.or_eq_false_iff] at h
    obtain ⟨h1, h2⟩ := h
    simp only [hasTag, Bool.or_eq_false_iff]
    refine ⟨?_, ih h2⟩
    cases hdt : dropTag tt with
    | none => simp [hdt]
    | some r =>
      have h1' : (c == 60 && (dropTag (tt ++ b)).isSome) = false := h1
      rw [dropTag_append tt b r hdt] at h1'
      simp only [Option.isSome_some, Bool.and_true] at h1'
      simp [h1', hdt]

theorem hasTag_append_suffix (a t : List Nat) (h : hasTag (a ++ t) = false) :
    hasTag t = false := by
  induction a with
  | nil => exact h
  | cons c aa ih =>
    simp only [List.cons_append, hasTag, Bool.or_eq_false_iff] at h
    exact ih h.2

theorem head?_dropWhile (p : Nat → Bool) (l : List Nat) (c : Nat)
    (h : (l.dropWhile p).head? = some c) : p c = false := by
  induction l with
  | nil => simp [List.dropWhile] at h
  | cons x t ih =>
    rw [List.dropWhile_cons] at h
    by_cases hx : p x
    · rw [if_pos hx] at h
      exact ih h
    · rw [if_neg hx] at h
      simp only [List.head?_cons, Option.some.injEq] at h
      subst h
      simpa using hx

theorem head?_trim (l : List Nat) (c : Nat) (h : (trim l).head? = some c) :
    isWs c = false := by
  unfold trim trimRight at h
  obtain ⟨u, hu⟩ : (trimLeft l).reverse.dropWhile isWs <:+ (trimLeft l).reverse :=
    List.dropWhile_suffix _
  have hrev : ((trimLeft l).reverse.dropWhile isWs).reverse ++ u.reverse
      = trimLeft l := by
    have := congrArg List.reverse hu
    simpa [List.reverse_append] using this
  cases hyr : ((trimLeft l).reverse.dropWhile isWs).reverse with
  | nil => rw [hyr] at h; simp at h
  | cons c0 t0 =>
    rw [hyr] at h
    simp only [List.head?_cons, Option.some.injEq] at h
    have hW : trimLeft l = c0 :: (t0 ++ u.reverse) := by
      rw [← hrev, hyr]; simp
    have hh : (l.dropWhile isWs).head? = some c0 := by
      show (trimLeft l).head? = some c0
      rw [hW]; rfl
    rw [← h]
    exact head?_dropWhile isWs l c0 hh

theorem getLast?_trim (l : List Nat) (c : Nat) (h : (trim l).getLast? = some c) :
    isWs c = false := by
  unfold trim trimRight at h
  rw [List.getLast?_reverse] at h
  exact head?_dropWhile _ _ _ h

theorem hasTag_trim (l : List Nat) (h : hasTag l = false) :
    hasTag (trim l) = false := by
  obtain ⟨u, hu⟩ : l.dropWhile isWs <:+ l := List.dropWhile_suffix _
  have h1 : hasTag (trimLeft l) = false := by
    refine hasTag_append_suffix u _ ?_
    show hasTag (u ++ l.dropWhile isWs) = false
    rw [hu]; exact h
  obtain ⟨w, hw⟩ : ∃ w, trim l ++ w = trimLeft l := by
    obtain ⟨v, hv⟩ : (trimLeft l).reverse.dropWhile isWs <:+ (trimLeft l).reverse :=
      List.dropWhile_suffix _
    refine ⟨v.reverse, ?_⟩
    have := congrArg List.reverse hv
    simpa [List.reverse_append] using this
  refine hasTag_append_prefix (trim l) w ?_
  rw [hw]; exact h1

theorem sanitizeName_hasTag (raw : List Nat) :
    hasTag (sanitizeName raw) = false :=
  hasTag_trim _ (hasTag_stripTags raw)

theorem sanitizeName_head (raw : List Nat) (c : Nat)
    (h : (sanitizeName raw).head? = some c) : isWs c = false :=
  head?_trim _ _ h

theorem sanitizeName_getLast (raw : List Nat) (c : Nat)
    (h : (sanitizeName raw).getLast? = some c) : isWs c = false :=
  getLast?_trim _ _ h

/-! ## Stream consumption bounds (truncation safety) -/

theorem getD_eq (l : List Bool) (n : Nat) : l[n]?.getD false = l.getD n false :=
  (List.getD_eq_getElem?_getD l n false).symm

theorem readUint8_length (bs : List Nat) (v : Nat) (r : List Nat)
    (h : readUint8 bs = some (v, r)) : bs.length = r.length + 1 := by
  cases bs with
  | nil => simp [readUint8] at h
  | cons b t =>
    simp only [readUint8, Option.some.injEq, Prod.mk.injEq] at h
    rw [← h.2]
    rfl

theorem readUint16_length (bs : List Nat) (v : Nat) (r : List Nat)
    (h : readUint16 bs = some (v, r)) : bs.length = r.length + 2 := by
  match bs with
  | [] => simp [readUint16] at h
  | [b0] => simp [readUint16] at h
  | b0 :: b1 :: t =>
    simp only [readUint16, Option.some.injEq, Prod.mk.injEq] at h
    rw [← h.2]
    rfl

theorem readUint32_length (bs : List Nat) (v : Nat) (r : List Nat)
    (h : readUint32 bs = some (v, r)) : bs.length = r.length + 4 := by
  match bs with
  | [] => simp [readUint32] at h
  | [b0] => simp [readUint32] at h
  | [b0, b1] => simp [readUint32] at h
  | [b0, b1, b2] => simp [readUint32] at h
  | b0 :: b1 :: b2 :: b3 :: t =>
    simp only [readUint32, Option.some.injEq, Prod.mk.injEq] at h
    rw [← h.2]
    rfl

theorem readBytes_length (n : Nat) (bs s r : List Nat)
    (h : readBytes n bs = some (s, r)) : bs.length = r.length + n := by
  unfold readBytes at h
  split at h
  · simp only [Option.some.injEq, Prod.mk.injEq] at h
    rw [← h.2]
    simp only [List.length_drop]
    omega
  · exact absurd h (by simp)

theorem readString_length (m : Nat) (bs s r : List Nat)
    (h : readString m bs = some (s, r)) : r.length + 1 ≤ bs.length := by
  unfold readString at h
  by_cases hm : m < 256
  · rw [if_pos hm] at h
    cases h8 : readUint8 bs with
    | none => rw [h8] at h; simp at h
    | some p =>
      obtain ⟨len, bs1⟩ := p
      rw [h8] at h
      have e1 := readUint8_length bs len bs1 h8
      have e2 := readBytes_length len bs1 s r h
      omega
  · rw [if_neg hm] at h
    cases h16 : readUint16 bs with
    | none => rw [h16] at h; simp at h
    | some p =>
      obtain ⟨len, bs1⟩ := p
      rw [h16] at h
      have e1 := readUint16_length bs len bs1 h16
      have e2 := readBytes_length len bs1 s r h
      omega

theorem readBooleanGroup_length (bs : List Nat) (fl : List Bool) (r : List Nat)
    (h : readBooleanGroup bs = some (fl, r)) : bs.length = r.length + 1 := by
  unfold readBooleanGroup at h
  cases h8 : readUint8 bs with
  | none => rw [h8] at h; simp at h
  | some p =>
    obtain ⟨v, bs1⟩ := p
    rw [h8] at h
    simp only [Option.some.injEq, Prod.mk.injEq] at h
    rw [← h.2]
    exact readUint8_length bs v bs1 h8

theorem mathProblemDeserialize_length (bs : List Nat) (d : MathProblemData)
    (r : List Nat) (h : mathProblemDeserialize bs = some (d, r)) :
    r.length + 5 ≤ bs.length := by
  unfold mathProblemDeserialize at h
  cases h1 : readString 32 bs with
  | none => simp [h1] at h
  | some p1 =>
    obtain ⟨s1, bs1⟩ := p1
    simp only [h1] at h
    cases h2 : readString 32 bs1 with
    | none => simp [h2] at h
    | some p2 =>
      obtain ⟨s2, bs2⟩ := p2
      simp only [h2] at h
      cases h3 : readUint8 bs2 with
      | none => simp [h3] at h
      | some p3 =>
        obtain ⟨c3, bs3⟩ := p3
        simp only [h3] at h
        cases h4 : readUint16 bs3 with
        | none => simp [h4] at h
        | some p4 =>
          obtain ⟨v4, bs4⟩ := p4
          simp only [h4, Option.some.injEq, Prod.mk.injEq] at h
          obtain ⟨-, rfl⟩ := h
          have e1 := readString_length 32 bs s1 bs1 h1
          have e2 := readString_length 32 bs1 s2 bs2 h2
          have e3 := readUint8_length bs2 c3 bs3 h3
          have e4 := readUint16_length bs3 v4 bs4 h4
          omega

theorem mathFeedbackDeserialize_length (bs : List Nat) (d : MathFeedbackData)
    (r : List Nat) (h : mathFeedbackDeserialize bs = some (d, r)) :
    r.length + 3 ≤ bs.length := by
  unfold mathFeedbackDeserialize at h
  cases h1 : readBooleanGroup bs with
  | none => simp [h1] at h
  | some p1 =>
    obtain ⟨fl, bs1⟩ := p1
    simp only [h1] at h
    cases h2 : readUint16 bs1 with
    | none => rw [h2] at h; simp at h
    | some p2 =>
      obtain ⟨v2, bs2⟩ := p2
      simp only [h2] at h
      cases h3 : readOpt readUint16 (fl.getD 1 false) bs2 with
      | none => rw [h3] at h; simp at h
      | some p3 =>
        obtain ⟨o3, bs3⟩ := p3
        simp only [h3] at h
        cases h4 : readOpt readUint32 (fl.getD 2 false) bs3 with
        | none => rw [h4] at h; simp at h
        | some p4 =>
          obtain ⟨o4, bs4⟩ := p4
          simp only [h4, Option.some.injEq, Prod.mk.injEq] at h
          have e1 := readBooleanGroup_length bs fl bs1 h1
          have e2 := readUint16_length bs1 v2 bs2 h2
          have e3 : bs3.length ≤ bs2.length := by
            unfold readOpt at h3
            by_cases hf : fl.getD 1 false = true
            · rw [if_pos hf] at h3
              cases h5 : readUint16 bs2 with
              | none => rw [h5] at h3; simp at h3
              | some p5 =>
                obtain ⟨v5, bs5⟩ := p5
                rw [h5] at h3
                simp only [Option.some.injEq, Prod.mk.injEq] at h3
                have := readUint16_length bs2 v5 bs5 h5
                rw [← h3.2]
                omega
            · rw [if_neg hf] at h3
              simp only [Option.some.injEq, Prod.mk.injEq] at h3
              rw [← h3.2]
          have e4 : bs4.length ≤ bs3.length := by
            unfold readOpt at h4
            by_cases hf : fl.getD 2 false = true
            · rw [if_pos hf] at h4
              cases h5 : readUint32 bs3 with
              | none => rw [h5] at h4; simp at h4
              | some p5 =>
                obtain ⟨v5, bs5⟩ := p5
                rw [h5] at h4
                simp only [Option.some.injEq, Prod.mk.injEq] at h4
                have := readUint32_length bs3 v5 bs5 h5
                rw [← h4.2]
                omega
            · rw [if_neg hf] at h4
              simp only [Option.some.injEq, Prod.mk.injEq] at h4
              rw [← h4.2]
          obtain ⟨-, rfl⟩ := h
          omega

/-! ## Deserializer inversion: flags govern optional-field presence -/

theorem readOpt_isSome {α : Type} (reader : List Nat → Option (α × List Nat))
    (flag : Bool) (bs : List Nat) (o : Option α) (r : List Nat)
    (h : readOpt reader flag bs = some (o, r)) : o.isSome = flag := by
  cases flag with
  | false =>
    simp only [readOpt, Bool.false_eq_true, if_false, Option.some.injEq,
      Prod.mk.injEq] at h
    rw [← h.1]
    rfl
  | true =>
    simp only [readOpt, if_true] at h
    cases hr : reader bs with
    | none => rw [hr] at h; simp at h
    | some p =>
      obtain ⟨v, r1⟩ := p
      rw [hr] at h
      simp only [Option.some.injEq, Prod.mk.injEq] at h
      rw [← h.1]
      rfl

theorem readEmotes_inv (nE : Nat) (flags : List Bool) (bs : List Nat)
    (es : List (Option Nat)) (r : List Nat)
    (h : readEmotes nE flags bs = some (es, r)) :
    es.length = flags.length
      ∧ ∀ i, (es.getD i none).isSome = flags.getD i false := by
  induction flags generalizing bs es r with
  | nil =>
    simp only [readEmotes, Option.some.injEq, Prod.mk.injEq] at h
    rw [← h.1]
    exact ⟨rfl, fun i => by cases i <;> rfl⟩
  | cons f fs ih =>
    cases f with
    | true =>
      simp only [readEmotes, if_true] at h
      cases h1 : readRegistry nE bs with
      | none => rw [h1] at h; simp at h
      | some p1 =>
        obtain ⟨e, bs1⟩ := p1
        simp only [h1] at h
        cases h2 : readEmotes nE fs bs1 with
        | none => rw [h2] at h; simp at h
        | some p2 =>
          obtain ⟨es1, r1⟩ := p2
          simp only [h2] at h
          simp only [Option.some.injEq, Prod.mk.injEq] at h
          obtain ⟨hes, -⟩ := h
          obtain ⟨hlen, hfl⟩ := ih bs1 es1 r1 h2
          rw [← hes]
          refine ⟨by simp [hlen], fun i => ?_⟩
          cases i with
          | zero => rfl
          | succ n =>
            show (es1.getD n none).isSome = fs.getD n false
            exact hfl n
    | false =>
      simp only [readEmotes, Bool.false_eq_true, if_false] at h
      cases h2 : readEmotes nE fs bs with
      | none => rw [h2] at h; simp at h
      | some p2 =>
        obtain ⟨es1, r1⟩ := p2
        simp only [h2] at h
        simp only [Option.some.injEq, Prod.mk.injEq] at h
        obtain ⟨hes, -⟩ := h
        obtain ⟨hlen, hfl⟩ := ih bs es1 r1 h2
        rw [← hes]
        refine ⟨by simp [hlen], fun i => ?_⟩
        cases i with
        | zero => rfl
        | succ n =>
          show (es1.getD n none).isSome = fs.getD n false
          exact hfl n

theorem mathFeedbackDeserialize_inv (bs : List Nat) (d : MathFeedbackData)
    (r : List Nat) (h : mathFeedbackDeserialize bs = some (d, r)) :
    ∃ b tail, bs = b :: tail
      ∧ d.isCorrect = (natToBits 8 b).getD 0 false
      ∧ d.xpEarned.isSome = (natToBits 8 b).getD 1 false
      ∧ d.totalXP.isSome = (natToBits 8 b).getD 2 false := by
  unfold mathFeedbackDeserialize at h
  cases h1 : readBooleanGroup bs with
  | none => rw [h1] at h; simp at h
  | some p1 =>
    obtain ⟨fl, bs1⟩ := p1
    simp only [h1] at h
    obtain ⟨b, tail, rfl, rfl⟩ : ∃ b tail, bs = b :: tail ∧ fl = natToBits 8 b := by
      unfold readBooleanGroup at h1
      cases bs with
      | nil => simp [readUint8] at h1
      | cons b tail =>
        simp only [readUint8, Option.some.injEq, Prod.mk.injEq] at h1
        exact ⟨b, tail, rfl, h1.1.symm⟩
    cases h2 : readUint16 bs1 with
    | none => rw [h2] at h; simp at h
    | some p2 =>
      obtain ⟨v2, bs2⟩ := p2
      simp only [h2] at h
      cases h3 : readOpt readUint16 ((natToBits 8 b).getD 1 false) bs2 with
      | none => rw [h3] at h; simp at h
      | some p3 =>
        obtain ⟨o3, bs3⟩ := p3
        simp only [h3] at h
        cases h4 : readOpt readUint32 ((natToBits 8 b).getD 2 false) bs3 with
        | none => rw [h4] at h; simp at h
        | some p4 =>
          obtain ⟨o4, bs4⟩ := p4
          simp only [h4] at h
          simp only [Option.some.injEq, Prod.mk.injEq] at h
          obtain ⟨hd, -⟩ := h
          refine ⟨b, tail, rfl, ?_, ?_, ?_⟩
          · rw [← hd]
          · rw [← hd]
            exact readOpt_isSome _ _ _ _ _ h3
          · rw [← hd]
            exact readOpt_isSome _ _ _ _ _ h4

theorem joinDeserialize_inv (nL nB nE : Nat) (bs : List Nat) (d : JoinData)
    (r : List Nat) (h : joinDeserialize nL nB nE bs = some (d, r)) :
    ∃ b0 b1 tail, bs = b0 :: b1 :: tail
      ∧ (∃ raw, d.name = sanitizeName raw)
      ∧ d.isMobile = (natToBits 16 (b0 + 256 * b1)).getD 0 false
      ∧ d.badge.isSome = (natToBits 16 (b0 + 256 * b1)).getD 1 false
      ∧ d.authToken.isSome = (natToBits 16 (b0 + 256 * b1)).getD 2 false
      ∧ d.studentId.isSome = (natToBits 16 (b0 + 256 * b1)).getD 3 false
      ∧ d.emotes.length = 8
      ∧ (∀ i, i < 6 → (d.emotes.getD i none).isSome
          = (natToBits 16 (b0 + 256 * b1)).getD (4 + i) false)
      ∧ d.emotes.getD 6 none = none ∧ d.emotes.getD 7 none = none := by
  unfold joinDeserialize at h
  cases h1 : readBooleanGroup2 bs with
  | none => rw [h1] at h; simp at h
  | some p1 =>
    obtain ⟨fl, bs1⟩ := p1
    simp only [h1] at h
    obtain ⟨b0, b1, tail, rfl, rfl⟩ :
        ∃ b0 b1 tail, bs = b0 :: b1 :: tail ∧ fl = natToBits 16 (b0 + 256 * b1) := by
      unfold readBooleanGroup2 at h1
      match bs with
      | [] => simp [readUint16] at h1
      | [b0] => simp [readUint16] at h1
      | b0 :: b1 :: tail =>
        simp only [readUint16, Option.some.injEq, Prod.mk.injEq] at h1
        exact ⟨b0, b1, tail, rfl, h1.1.symm⟩
    cases h2 : readUint16 bs1 with
    | none => rw [h2] at h; simp at h
    | some p2 =>
      obtain ⟨pv, bs2⟩ := p2
      simp only [h2] at h
      cases h3 : readPlayerName bs2 with
      | none => rw [h3] at h; simp at h
      | some p3 =>
        obtain ⟨rawName, bs3⟩ := p3
        simp only [h3] at h
        cases h4 : readRegistry nL bs3 with
        | none => rw [h4] at h; simp at h
        | some p4 =>
          obtain ⟨skin, bs4⟩ := p4
          simp only [h4] at h
          cases h5 : readOpt (readRegistry nB)
              ((natToBits 16 (b0 + 256 * b1)).getD 1 false) bs4 with
          | none => rw [h5] at h; simp at h
          | some p5 =>
            obtain ⟨badge, bs5⟩ := p5
            simp only [h5] at h
            cases h6 : readOpt (readString 256)
                ((natToBits 16 (b0 + 256 * b1)).getD 2 false) bs5 with
            | none => rw [h6] at h; simp at h
            | some p6 =>
              obtain ⟨authToken, bs6⟩ := p6
              simp only [h6] at h
              cases h7 : readOpt (readString 64)
                  ((natToBits 16 (b0 + 256 * b1)).getD 3 false) bs6 with
              | none => rw [h7] at h; simp at h
              | some p7 =>
                obtain ⟨studentId, bs7⟩ := p7
                simp only [h7] at h
                cases h8 : readEmotes nE
                    (((natToBits 16 (b0 + 256 * b1)).drop 4).take 6) bs7 with
                | none => rw [h8] at h; simp at h
                | some p8 =>
                  obtain ⟨emotes, bs8⟩ := p8
                  simp only [h8] at h
                  simp only [Option.some.injEq, Prod.mk.injEq] at h
                  obtain ⟨hd, -⟩ := h
                  obtain ⟨hlen6, hfl6⟩ := readEmotes_inv nE _ _ _ _ h8
                  have hlen6' : emotes.length = 6 := by
                    rw [hlen6]
                    simp [natToBits_length]
                  refine ⟨b0, b1, tail, rfl, ⟨rawName, by rw [← hd]⟩,
                    by rw [← hd], ?_, ?_, ?_, ?_, ?_, ?_, ?_⟩
                  · rw [← hd]
                    exact readOpt_isSome _ _ _ _ _ h5
                  · rw [← hd]
                    exact readOpt_isSome _ _ _ _ _ h6
                  · rw [← hd]
                    exact readOpt_isSome _ _ _ _ _ h7
                  · rw [← hd]
                    simp [hlen6']
                  · intro i hi
                    rw [← hd]
                    show ((emotes ++ [none, none]).getD i none).isSome
                      = (natToBits 16 (b0 + 256 * b1)).getD (4 + i) false
                    have hgi : (emotes ++ [none, none]).getD i none
                        = emotes.getD i none := by
                      rw [List.getD_eq_getElem?_getD, List.getD_eq_getElem?_getD,
                        List.getElem?_append_left (by omega)]
                    rw [hgi, hfl6 i, List.getD_eq_getElem?_getD,
                      List.getD_eq_getElem?_getD, List.getElem?_take,
                      if_pos hi, List.getElem?_drop]
                  · rw [← hd]
                    show ((emotes ++ [none, none]).getD 6 none) = none
                    rw [List.getD_eq_getElem?_getD,
                      List.getElem?_append_right (by omega), hlen6']
                    rfl
                  · rw [← hd]
                    show ((emotes ++ [none, none]).getD 7 none) = none
                    rw [List.getD_eq_getElem?_getD,
                      List.getElem?_append_right (by omega), hlen6']
                    rfl

/-! ## Claim theorems -/

/-- C1: for every packet type in the snapshot (MathProblem, MathAnswer,
MathFeedback, Join) and every valid payload — including every combination
of optional-field presence — deserializing the serialized bytes yields a
payload equal in every field the source set, with absent optional fields
decoding as absent (the decoded `Option` fields are equal to the source's,
so `none` stays `none`); the join payload additionally carries the protocol
version the serializer writes. -/
theorem roundtrip_all_packets :
    (∀ d : MathProblemData, validMathProblem d = true →
      mathProblemDeserialize (mathProblemSerialize d) = some (d, []))
    ∧ (∀ d : MathAnswerData, validMathAnswer d = true →
      mathAnswerDeserialize (mathAnswerSerialize d) = some (d, []))
    ∧ (∀ d : MathFeedbackData, validMathFeedback d = true →
      mathFeedbackDeserialize (mathFeedbackSerialize d) = some (d, []))
    ∧ (∀ (nL nB nE : Nat) (d : JoinPacketCreation),
      nL ≤ 65536 → nB ≤ 65536 → nE ≤ 65536 → validJoin nL nB nE d = true →
      joinDeserialize nL nB nE (joinSerialize d) = some (joinDataOf d, [])) := by
  refine ⟨fun d h => ?_, fun d h => ?_, fun d h => ?_,
    fun nL nB nE d hL hB hE h => ?_⟩
  · have := mathProblem_roundtrip d [] h
    simpa using this
  · have := mathAnswer_roundtrip d [] h
    simpa using this
  · have := mathFeedback_roundtrip d [] h
    simpa using this
  · have := join_roundtrip nL nB nE hL hB hE d [] h
    simpa using this

/-- C1 witness: a concrete valid payload of each packet type round-trips;
the feedback and join payloads exercise both present and absent optional
fields. -/
theorem roundtrip_all_packets_witness :
    validMathProblem ⟨[51, 32, 43, 32, 52], [103, 97, 117, 122, 101], 3, 7⟩ = true
    ∧ mathProblemDeserialize (mathProblemSerialize
        ⟨[51, 32, 43, 32, 52], [103, 97, 117, 122, 101], 3, 7⟩)
      = some (⟨[51, 32, 43, 32, 52], [103, 97, 117, 122, 101], 3, 7⟩, [])
    ∧ validMathAnswer ⟨-5, 7⟩ = true
    ∧ mathAnswerDeserialize (mathAnswerSerialize ⟨-5, 7⟩) = some (⟨-5, 7⟩, [])
    ∧ validMathFeedback ⟨true, 7, some 2, none⟩ = true
    ∧ mathFeedbackDeserialize (mathFeedbackSerialize ⟨true, 7, some 2, none⟩)
      = some (⟨true, 7, some 2, none⟩, [])
    ∧ validJoin 4 4 4 ⟨[97, 98], true, 2, some 1,
        [some 3, none, some 2, none, none, none, none, none], some [116], none⟩ = true
    ∧ joinDeserialize 4 4 4 (joinSerialize ⟨[97, 98], true, 2, some 1,
        [some 3, none, some 2, none, none, none, none, none], some [116], none⟩)
      = some (joinDataOf ⟨[97, 98], true, 2, some 1,
        [some 3, none, some 2, none, none, none, none, none], some [116], none⟩, []) :=
  ⟨by decide,
    roundtrip_all_packets.1 _ (by decide),
    by decide,
    roundtrip_all_packets.2.1 _ (by decide),
    by decide,
    roundtrip_all_packets.2.2.1 _ (by decide),
    by decide,
    roundtrip_all_packets.2.2.2 4 4 4 _ (by decide) (by decide) (by decide)
      (by decide)⟩

/-- C2: the concrete scenario — a math-challenge payload with problem
"3 + 4" (codes 51 32 43 32 52), reward type "gauze"
(codes 103 97 117 122 101), reward count 3 and problem id 7 round-trips to
exactly those four values, and a feedback payload with isCorrect true,
xpEarned present and equal to 2, and totalXP absent round-trips to
isCorrect true, xpEarned 2, totalXP absent (not zero). -/
theorem concrete_scenario_roundtrip :
    mathProblemDeserialize (mathProblemSerialize
        ⟨[51, 32, 43, 32, 52], [103, 97, 117, 122, 101], 3, 7⟩)
      = some (⟨[51, 32, 43, 32, 52], [103, 97, 117, 122, 101], 3, 7⟩, [])
    ∧ mathFeedbackDeserialize (mathFeedbackSerialize ⟨true, 7, some 2, none⟩)
      = some (⟨true, 7, some 2, none⟩, []) := by
  constructor <;> decide

/-- C3: the math-challenge packet's serialize writes, in order, a
32-bounded problem string, a 32-bounded reward-type string, an unsigned
8-bit reward count and an unsigned 16-bit problem id, with no boolean
group; the answer packet's serialize writes a signed 16-bit answer then
the unsigned 16-bit problem id; and each deserialize reads exactly the
same fields in the same order — consuming precisely the serialized bytes
and recovering each field, for any trailing bytes. -/
theorem fixed_packet_field_order :
    (∀ d : MathProblemData, mathProblemSerialize d
      = writeString 32 d.problem ++ writeString 32 d.rewardType
        ++ writeUint8 d.rewardCount ++ writeUint16 d.problemId)
    ∧ (∀ d : MathAnswerData, mathAnswerSerialize d
      = writeInt16 d.answer ++ writeUint16 d.problemId)
    ∧ (∀ (d : MathProblemData) (rest : List Nat), validMathProblem d = true →
      mathProblemDeserialize (mathProblemSerialize d ++ rest) = some (d, rest))
    ∧ (∀ (d : MathAnswerData) (rest : List Nat), validMathAnswer d = true →
      mathAnswerDeserialize (mathAnswerSerialize d ++ rest) = some (d, rest)) :=
  ⟨fun _ => rfl, fun _ => rfl, mathProblem_roundtrip, mathAnswer_roundtrip⟩

/-- C3 witness: the deserializers recover the concrete fields in order and
leave the trailing bytes untouched. -/
theorem fixed_packet_field_order_witness :
    validMathProblem ⟨[51, 32, 43, 32, 52], [103, 97, 117, 122, 101], 3, 7⟩ = true
    ∧ mathProblemDeserialize (mathProblemSerialize
        ⟨[51, 32, 43, 32, 52], [103, 97, 117, 122, 101], 3, 7⟩ ++ [9, 9])
      = some (⟨[51, 32, 43, 32, 52], [103, 97, 117, 122, 101], 3, 7⟩, [9, 9])
    ∧ validMathAnswer ⟨-5, 7⟩ = true
    ∧ mathAnswerDeserialize (mathAnswerSerialize ⟨-5, 7⟩ ++ [9, 9])
      = some (⟨-5, 7⟩, [9, 9]) :=
  ⟨by decide,
    fixed_packet_field_order.2.2.1 _ [9, 9] (by decide),
    by decide,
    fixed_packet_field_order.2.2.2 _ [9, 9] (by decide)⟩

/-- C4: the join packet's serialize writes one ten-flag boolean group —
in order: isMobile, badge present, auth-token present (256-bounded string),
student-id present (64-bounded string), and presence of each of six
emote references — then the fields in that declared order, each optional
field written only when its flag is set; and the deserializer reads an
optional field if and only if the corresponding flag of the group it read
first was set. -/
theorem join_flag_group_layout :
    (∀ d : JoinPacketCreation, joinSerialize d
      = writeBooleanGroup2
          [d.isMobile, d.badge.isSome, d.authToken.isSome, d.studentId.isSome,
            (d.emotes.getD 0 none).isSome, (d.emotes.getD 1 none).isSome,
            (d.emotes.getD 2 none).isSome, (d.emotes.getD 3 none).isSome,
            (d.emotes.getD 4 none).isSome, (d.emotes.getD 5 none).isSome]
        ++ writeUint16 protocolVersion
        ++ writePlayerName d.name
        ++ writeRegistry d.skin
        ++ writeOpt writeRegistry d.badge
        ++ writeOpt (writeString 256) d.authToken
        ++ writeOpt (writeString 64) d.studentId
        ++ writeEmotes (emoteSlots d.emotes))
    ∧ (∀ (nL nB nE b0 b1 : Nat) (tail : List Nat) (d : JoinData) (rest : List Nat),
      joinDeserialize nL nB nE (b0 :: b1 :: tail) = some (d, rest) →
      d.isMobile = (natToBits 16 (b0 + 256 * b1)).getD 0 false
      ∧ d.badge.isSome = (natToBits 16 (b0 + 256 * b1)).getD 1 false
      ∧ d.authToken.isSome = (natToBits 16 (b0 + 256 * b1)).getD 2 false
      ∧ d.studentId.isSome = (natToBits 16 (b0 + 256 * b1)).getD 3 false
      ∧ ∀ i, i < 6 → (d.emotes.getD i none).isSome
          = (natToBits 16 (b0 + 256 * b1)).getD (4 + i) false) := by
  refine ⟨fun d => rfl, fun nL nB nE b0 b1 tail d rest h => ?_⟩
  obtain ⟨b0', b1', tail', heq, -, hmob, hbadge, hauth, hsid, -, hfl, -, -⟩ :=
    joinDeserialize_inv nL nB nE _ d rest h
  obtain ⟨rfl, rfl, rfl⟩ : b0' = b0 ∧ b1' = b1 ∧ tail' = tail := by
    injection heq with e1 e2
    injection e2 with e2 e3
    exact ⟨e1.symm, e2.symm, e3.symm⟩
  exact ⟨hmob, hbadge, hauth, hsid, hfl⟩

/-- C4 witness: a byte stream whose ten-flag group is all clear decodes
with every optional field absent, matching the group's flags. -/
theorem join_flag_group_layout_witness :
    joinDeserialize 4 4 4 (0 :: 0 :: [1, 0, 2, 97, 98, 0, 0])
      = some (⟨1, [97, 98], false, 0, none,
          [none, none, none, none, none, none, none, none], none, none⟩, [])
    ∧ ((⟨1, [97, 98], false, 0, none,
          [none, none, none, none, none, none, none, none], none, none⟩
          : JoinData).badge.isSome
        = (natToBits 16 (0 + 256 * 0)).getD 1 false) :=
  ⟨by decide,
    ((join_flag_group_layout.2 4 4 4 0 0 [1, 0, 2, 97, 98, 0, 0]
      ⟨1, [97, 98], false, 0, none,
        [none, none, none, none, none, none, none, none], none, none⟩ []
      (by decide)).2.1)⟩

/-- C5: for every input byte stream on which the join packet's deserialize
succeeds, the decoded display name has been sanitized: it contains no
markup-like substring (no `<`, one or more non-`>` characters, `>`), and
its first and last characters, when they exist, are not whitespace. -/
theorem join_name_sanitized : ∀ (nL nB nE : Nat) (bs : List Nat) (d : JoinData)
    (rest : List Nat), joinDeserialize nL nB nE bs = some (d, rest) →
    hasTag d.name = false
    ∧ (∀ c, d.name.head? = some c → isWs c = false)
    ∧ (∀ c, d.name.getLast? = some c → isWs c = false) := by
  intro nL nB nE bs d rest h
  obtain ⟨b0, b1, tail, -, ⟨raw, hname⟩, -⟩ :=
    joinDeserialize_inv nL nB nE bs d rest h
  rw [hname]
  exact ⟨sanitizeName_hasTag raw,
    fun c hc => sanitizeName_head raw c hc,
    fun c hc => sanitizeName_getLast raw c hc⟩

/-- C5 witness: a concrete successful decode whose name field satisfies the
sanitization contract. -/
theorem join_name_sanitized_witness :
    joinDeserialize 4 4 4 [0, 0, 1, 0, 2, 97, 98, 0, 0]
      = some (⟨1, [97, 98], false, 0, none,
          [none, none, none, none, none, none, none, none], none, none⟩, [])
    ∧ (hasTag ([97, 98] : List Nat) = false
      ∧ (∀ c, ([97, 98] : List Nat).head? = some c → isWs c = false)
      ∧ (∀ c, ([97, 98] : List Nat).getLast? = some c → isWs c = false)) :=
  ⟨by decide, join_name_sanitized 4 4 4 [0, 0, 1, 0, 2, 97, 98, 0, 0]
    ⟨1, [97, 98], false, 0, none,
      [none, none, none, none, none, none, none, none], none, none⟩ []
    (by decide)⟩

/-- C6: for every declared maximum length (below the 16-bit length-prefix
bound) and every in-range string strictly longer than it, serializing then
deserializing the bounded string yields exactly the first `maxLength`
character codes of the original — never more — and consumes exactly the
written bytes, leaving any trailing bytes untouched. -/
theorem bounded_string_truncation : ∀ (m : Nat) (s rest : List Nat),
    m < 65536 → (∀ c ∈ s, c < 256) → m < s.length →
    readString m (writeString m s ++ rest) = some (s.take m, rest)
    ∧ (s.take m).length = m := by
  intro m s rest hm hc hlen
  refine ⟨readString_writeString m s rest hm hc, ?_⟩
  rw [List.length_take]
  omega

/-- C6 witness: a three-character string through a 2-bounded field comes
back as exactly its first two characters. -/
theorem bounded_string_truncation_witness :
    (2 < 65536 ∧ (∀ c ∈ ([65, 66, 67] : List Nat), c < 256) ∧ 2 < 3)
    ∧ readString 2 (writeString 2 [65, 66, 67] ++ [])
        = some (([65, 66, 67] : List Nat).take 2, [])
    ∧ (([65, 66, 67] : List Nat).take 2).length = 2 :=
  ⟨⟨by decide, by decide, by decide⟩,
    (bounded_string_truncation 2 [65, 66, 67] [] (by decide) (by decide)
      (by decide)).1,
    (bounded_string_truncation 2 [65, 66, 67] [] (by decide) (by decide)
      (by decide)).2⟩

/-- C7: on every input byte stream — not only streams a serializer
produced — the feedback and join deserializers read the governing boolean
group (the leading byte or two bytes) first, and every optional field whose
presence flag is clear is left absent in the decoded payload, never
defaulted. -/
theorem cleared_flags_leave_fields_absent :
    (∀ (b : Nat) (tail : List Nat) (d : MathFeedbackData) (rest : List Nat),
      mathFeedbackDeserialize (b :: tail) = some (d, rest) →
      ((natToBits 8 b).getD 1 false = false → d.xpEarned = none)
      ∧ ((natToBits 8 b).getD 2 false = false → d.totalXP = none))
    ∧ (∀ (nL nB nE b0 b1 : Nat) (tail : List Nat) (d : JoinData) (rest : List Nat),
      joinDeserialize nL nB nE (b0 :: b1 :: tail) = some (d, rest) →
      ((natToBits 16 (b0 + 256 * b1)).getD 1 false = false → d.badge = none)
      ∧ ((natToBits 16 (b0 + 256 * b1)).getD 2 false = false → d.authToken = none)
      ∧ ((natToBits 16 (b0 + 256 * b1)).getD 3 false = false → d.studentId = none)
      ∧ (∀ i, i < 6 → (natToBits 16 (b0 + 256 * b1)).getD (4 + i) false = false →
          d.emotes.getD i none = none)) := by
  have habs : ∀ {α : Type} (o : Option α), o.isSome = false → o = none := by
    intro α o h
    cases o with
    | none => rfl
    | some v => simp at h
  constructor
  · intro b tail d rest h
    obtain ⟨b', tail', heq, -, hxp, htot⟩ :=
      mathFeedbackDeserialize_inv (b :: tail) d rest h
    obtain ⟨rfl, rfl⟩ : b' = b ∧ tail' = tail := by
      injection heq with e1 e2
      exact ⟨e1.symm, e2.symm⟩
    exact ⟨fun hf => habs _ (hxp.trans hf), fun hf => habs _ (htot.trans hf)⟩
  · intro nL nB nE b0 b1 tail d rest h
    obtain ⟨b0', b1', tail', heq, -, -, hbadge, hauth, hsid, -, hfl, -, -⟩ :=
      joinDeserialize_inv nL nB nE _ d rest h
    obtain ⟨rfl, rfl, rfl⟩ : b0' = b0 ∧ b1' = b1 ∧ tail' = tail := by
      injection heq with e1 e2
      injection e2 with e2 e3
      exact ⟨e1.symm, e2.symm, e3.symm⟩
    exact ⟨fun hf => habs _ (hbadge.trans hf),
      fun hf => habs _ (hauth.trans hf),
      fun hf => habs _ (hsid.trans hf),
      fun i hi hf => habs _ ((hfl i hi).trans hf)⟩

/-- C7 witness: a feedback stream with a cleared flag byte decodes with
both optional XP fields absent. -/
theorem cleared_flags_leave_fields_absent_witness :
    mathFeedbackDeserialize (1 :: [7, 0]) = some (⟨true, 7, none, none⟩, [])
    ∧ ((natToBits 8 1).getD 1 false = false →
        (⟨true, 7, none, none⟩ : MathFeedbackData).xpEarned = none) :=
  ⟨by decide,
    (cleared_flags_leave_fields_absent.1 1 [7, 0] ⟨true, 7, none, none⟩ []
      (by decide)).1⟩

/-- C8: decoding a byte sequence shorter than a packet's minimal encoding
fails (the error is surfaced as `none` — no payload is returned): any
successful math-problem decode consumes at least 5 bytes and any
successful feedback decode at least 3, so shorter streams always fail. -/
theorem truncated_decode_fails :
    (∀ bs : List Nat, bs.length < 5 → mathProblemDeserialize bs = none)
    ∧ (∀ bs : List Nat, bs.length < 3 → mathFeedbackDeserialize bs = none) := by
  constructor
  · intro bs hlen
    cases h : mathProblemDeserialize bs with
    | none => rfl
    | some p =>
      obtain ⟨d, r⟩ := p
      have := mathProblemDeserialize_length bs d r h
      omega
  · intro bs hlen
    cases h : mathFeedbackDeserialize bs with
    | none => rfl
    | some p =>
      obtain ⟨d, r⟩ := p
      have := mathFeedbackDeserialize_length bs d r h
      omega

/-- C8 witness: decoding the empty stream fails for both packets. -/
theorem truncated_decode_fails_witness :
    (([] : List Nat).length < 5 ∧ mathProblemDeserialize [] = none)
    ∧ (([] : List Nat).length < 3 ∧ mathFeedbackDeserialize [] = none) :=
  ⟨⟨by decide, truncated_decode_fails.1 [] (by decide)⟩,
    ⟨by decide, truncated_decode_fails.2 [] (by decide)⟩⟩

/-- C9: every problem `generateProblem` can return — for any manager
state, player and random draws — has an integer answer between 0 and 81
inclusive (subtraction takes the larger operand first, division is built
as `result * divisor` divided by `divisor` so the answer is the exact
quotient `result`), and that answer round-trips exactly through the
MathAnswer packet's signed 16-bit answer field. -/
theorem generateProblem_answer_bounds :
    ∀ (st : ManagerState) (playerId : Nat) (d : Draws),
    0 ≤ (generateProblem st playerId d).1.answer
    ∧ (generateProblem st playerId d).1.answer ≤ 81
    ∧ readInt16 (writeInt16 (generateProblem st playerId d).1.answer ++ [])
        = some ((generateProblem st playerId d).1.answer, []) := by
  intro st playerId d
  obtain ⟨n1, n2, op, res, dv, ri, rc⟩ := d
  have hb : ∀ a : Int, 0 ≤ a → a ≤ 81 →
      0 ≤ a ∧ a ≤ 81 ∧ readInt16 (writeInt16 a ++ []) = some (a, []) :=
    fun a h0 h81 =>
      ⟨h0, h81, readInt16_writeInt16 a [] (by omega) (by omega)⟩
  rcases op with _ | _ | _ | _ | n
  · simp only [generateProblem]
    exact hb _ (by omega) (by omega)
  · simp only [generateProblem]
    exact hb _ (by omega) (by omega)
  · simp only [generateProblem]
    refine hb _ (by omega) ?_
    have h1 : 1 + n1 % 9 ≤ 9 := by omega
    have h2 : 1 + n2 % 9 ≤ 9 := by omega
    have := Nat.mul_le_mul h1 h2
    exact_mod_cast le_trans (by exact_mod_cast this) (by norm_num)
  · simp only [generateProblem]
    exact hb _ (by omega) (by omega)
  · simp only [generateProblem]
    exact hb _ (by omega) (by omega)

/-- C10: `validateAnswer` returns true exactly when the player has an
active problem whose id matches the submitted id and whose stored answer
matches the submitted answer; whenever it returns false, the manager
state (including the player's active-problem entry) and the player state
(inventory included) are returned unchanged. -/
theorem validateAnswer_spec :
    ∀ (st : ManagerState) (pl : PlayerState) (answer : Int) (problemId : Nat)
      (d : Draws),
    ((validateAnswer st pl answer problemId d).1 = true ↔
      ∃ p, st.activeProblem.lookup pl.id = some p
        ∧ p.problemId = problemId ∧ p.answer = answer)
    ∧ ((validateAnswer st pl answer problemId d).1 = false →
        (validateAnswer st pl answer problemId d).2.1 = st
        ∧ (validateAnswer st pl answer problemId d).2.2 = pl) := by
  intro st pl answer problemId d
  cases hl : st.activeProblem.lookup pl.id with
  | none =>
    simp only [validateAnswer, hl]
    refine ⟨⟨fun h => absurd h (by simp), ?_⟩, fun _ => ⟨trivial, trivial⟩⟩
    rintro ⟨p, hp, -, -⟩
    simp at hp
  | some p =>
    by_cases hpid : p.problemId = problemId
    · by_cases hans : p.answer = answer
      · simp only [validateAnswer, hl, if_neg (not_not_intro hpid),
          if_pos hans]
        exact ⟨⟨fun _ => ⟨p, rfl, hpid, hans⟩, fun _ => trivial⟩,
          fun h => absurd h (by simp)⟩
      · simp only [validateAnswer, hl, if_neg (not_not_intro hpid),
          if_neg hans]
        refine ⟨⟨fun h => absurd h (by simp), ?_⟩, fun _ => ⟨trivial, trivial⟩⟩
        rintro ⟨p', hp', -, hans'⟩
        simp only [Option.some.injEq] at hp'
        subst hp'
        exact (hans hans').elim
    · simp only [validateAnswer, hl, if_pos hpid]
      refine ⟨⟨fun h => absurd h (by simp), ?_⟩, fun _ => ⟨trivial, trivial⟩⟩
      rintro ⟨p', hp', hpid', -⟩
      simp only [Option.some.injEq] at hp'
      subst hp'
      exact (hpid hpid').elim

/-- C10 witness: a wrong answer to the active problem is rejected and
leaves the manager and player state untouched. -/
theorem validateAnswer_spec_witness :
    (validateAnswer ⟨[(5, ⟨[51], 7, [103], 3, 9⟩)], 10⟩ ⟨5, [], false, []⟩
        8 9 ⟨0, 0, 0, 0, 0, 0, 0⟩).1 = false
    ∧ (validateAnswer ⟨[(5, ⟨[51], 7, [103], 3, 9⟩)], 10⟩ ⟨5, [], false, []⟩
        8 9 ⟨0, 0, 0, 0, 0, 0, 0⟩).2.1 = ⟨[(5, ⟨[51], 7, [103], 3, 9⟩)], 10⟩
    ∧ (validateAnswer ⟨[(5, ⟨[51], 7, [103], 3, 9⟩)], 10⟩ ⟨5, [], false, []⟩
        8 9 ⟨0, 0, 0, 0, 0, 0, 0⟩).2.2 = ⟨5, [], false, []⟩ :=
  ⟨by decide,
    ((validateAnswer_spec ⟨[(5, ⟨[51], 7, [103], 3, 9⟩)], 10⟩ ⟨5, [], false, []⟩
      8 9 ⟨0, 0, 0, 0, 0, 0, 0⟩).2 (by decide)).1,
    ((validateAnswer_spec ⟨[(5, ⟨[51], 7, [103], 3, 9⟩)], 10⟩ ⟨5, [], false, []⟩
      8 9 ⟨0, 0, 0, 0, 0, 0, 0⟩).2 (by decide)).2⟩

end Suroi
